import Mathlib

/-!
Verification of `src/bindgen.rs` (embuild bindgen utilities).

Strings are modelled as lists of characters (UTF-8 byte order on Rust strings
agrees with codepoint order, so list-lexicographic comparison is faithful).
Paths are modelled as lists of components.  External effects — the
`--print-sysroot` subprocess, the file system, the generator and the
formatter — are passed in as explicit arguments.
-/

namespace Embuild

/-- Decidable equality for `Except`, used to evaluate results on concrete
inputs. -/
instance {ε α : Type} [DecidableEq ε] [DecidableEq α] : DecidableEq (Except ε α) :=
  fun a b =>
  match a, b with
  | .error e₁, .error e₂ => decidable_of_iff (e₁ = e₂) (by simp)
  | .error _, .ok _ => isFalse (by simp)
  | .ok _, .error _ => isFalse (by simp)
  | .ok v₁, .ok v₂ => decidable_of_iff (v₁ = v₂) (by simp)

/-- A string (Rust `str`/`OsStr`), as its list of characters. -/
abbrev Str : Type := List Char

/-- A file path (Rust `PathBuf`), as its list of components. -/
abbrev FsPath : Type := List Str

/-- An I/O error code (Rust `std::io::Error`), kept abstract. -/
abbrev IOErr : Type := Nat

/-- Rust `Path::file_name`: the last path component. -/
def fileName (p : FsPath) : Option Str := p.getLast?

/-- Splits a string at its last `'.'`, returning the parts before and after. -/
def splitLastDot : Str → Option (Str × Str)
  | [] => none
  | c :: cs =>
    match splitLastDot cs with
    | some (pre, post) => some (c :: pre, post)
    | none => if c = '.' then some ([], cs) else none

/-- Rust's `split_file_at_dot`: stem and extension of a file name.  A dot in
the leading position is ignored, and `".."` has no extension. -/
def splitFileAtDot (name : Str) : Str × Option Str :=
  if name = ['.', '.'] then (name, none)
  else
    match name with
    | [] => ([], none)
    | c :: cs =>
      match splitLastDot cs with
      | some (pre, post) => (c :: pre, some post)
      | none => (c :: cs, none)

/-- Rust `Path::file_stem`. -/
def fileStem (p : FsPath) : Option Str :=
  (fileName p).map (fun n => (splitFileAtDot n).1)

/-- Rust `Path::extension`. -/
def extension (p : FsPath) : Option Str :=
  (fileName p).bind (fun n => (splitFileAtDot n).2)

/-- Rust `Path::with_file_name`: pop the last component, push the new name. -/
def withFileName (p : FsPath) (name : Str) : FsPath := p.dropLast ++ [name]

/-- Rust `PathBuf::set_extension`: truncate the file name to its stem and,
when `ext` is non-empty, append `'.'` and `ext`. -/
def setExtension (p : FsPath) (ext : Str) : FsPath :=
  match fileStem p with
  | none => p
  | some stem => withFileName p (if ext = [] then stem else stem ++ '.' :: ext)

/-- Rust `Path::join` with a single relative component. -/
def joinC (p : FsPath) (c : Str) : FsPath := p ++ [c]

/-- Rendering of a path spliced into a flag string (`try_to_str`; components
joined by `'/'`). -/
def pathToStr (p : FsPath) : Str := (List.intersperse "/".data p).flatten

/-- Rust `str::ends_with`. -/
def strEndsWith (s suffix : Str) : Bool := suffix.isSuffixOf s

/-- Rust `str::strip_suffix`. -/
def stripSuffix (s suffix : Str) : Option Str :=
  if suffix.isSuffixOf s then some (s.take (s.length - suffix.length)) else none

/-- The GCC-family test applied to the linker's file stem in `try_get_sysroot`
(src/bindgen.rs:306): the stem is exactly `gcc` or ends with `-gcc`. -/
def gccStem (s : Str) : Bool := s == "gcc".data || strEndsWith s "-gcc".data

/-- The GCC-to-LD substitution of `try_get_sysroot` (src/bindgen.rs:303-319):
when the linker's file stem matches `gccStem`, replace the file name by the
stem with its `gcc` suffix replaced by `ld` (the `strip_suffix` cannot fail
there, so its fallback is never taken), then re-set the original extension,
if any. -/
def substituteGccLd (linker : FsPath) : FsPath :=
  match (fileStem linker).filter gccStem with
  | some stem =>
    let ldLinker := withFileName linker ((stripSuffix stem "gcc".data).getD [] ++ "ld".data)
    match extension linker with
    | some ext => setExtension ldLinker ext
    | none => ldLinker
  | none => linker

/-- Errors of `try_get_sysroot`. -/
inductive SysrootErr where
  | missingLinker : SysrootErr
  | detectionFailed : FsPath → SysrootErr
  deriving DecidableEq

/-- The `--print-sysroot` subprocess step of `try_get_sysroot`
(src/bindgen.rs:321-330); `query` models the external invocation, returning
the captured standard output as a path, or `none` on failure. -/
def querySysroot (query : FsPath → Option FsPath) (linker : FsPath) :
    Except SysrootErr FsPath :=
  let ld := substituteGccLd linker
  match query ld with
  | some out => .ok out
  | none => .error (.detectionFailed ld)

/-- Models `try_get_sysroot` (src/bindgen.rs:294-330); `envLinker` is the
`RUSTC_LINKER` environment variable. -/
def try_get_sysroot (linker : Option FsPath) (envLinker : Option FsPath)
    (query : FsPath → Option FsPath) : Except SysrootErr FsPath :=
  match linker with
  | some l => querySysroot query l
  | none =>
    match envLinker with
    | some l => querySysroot query l
    | none => .error .missingLinker

/-- File-system access used by `get_cpp_includes`: `fs::read_dir` (entries
given as full paths, as produced by `DirEntry::path`) and
`fs::canonicalize`. -/
structure Fs where
  readDir : FsPath → Except IOErr (List (Except IOErr FsPath))
  canonicalize : FsPath → Except IOErr FsPath

/-- The directory `{sysroot}/include/c++` enumerated by `get_cpp_includes`. -/
def cppIncludesRoot (sysroot : FsPath) : FsPath :=
  joinC (joinC sysroot "include".data) "c++".data

/-- One step of the fold in `get_cpp_includes` (src/bindgen.rs:338-345): keep
the accumulator when `a >= s`, otherwise take the new entry; entries that
errored are skipped. -/
def foldStep (ao : Option FsPath) (sr : Except IOErr FsPath) : Option FsPath :=
  match ao with
  | some a =>
    match sr.toOption with
    | some s => if a < s then some s else ao
    | none => ao
  | none => sr.toOption

/-- The version directory selected by `get_cpp_includes` from the enumerated
entries. -/
def cppVersionOf (entries : List (Except IOErr FsPath)) : Option FsPath :=
  entries.foldl foldStep none

/-- The readable entries among an enumeration's results. -/
def okPaths (entries : List (Except IOErr FsPath)) : List FsPath :=
  entries.filterMap Except.toOption

/-- An include flag `-I{p}`. -/
def iFlag (p : FsPath) : Str := "-I".data ++ pathToStr p

/-- Models `get_cpp_includes` (src/bindgen.rs:332-364). -/
def get_cpp_includes (fs : Fs) (sysroot : FsPath) : Except IOErr (List Str) :=
  match fs.readDir (cppIncludesRoot sysroot) with
  | .error e => .error e
  | .ok entries =>
    match cppVersionOf entries with
    | some cppVersion =>
      let cppIncludePaths := [iFlag cppVersion, iFlag (joinC cppVersion "backward".data)]
      match fs.canonicalize sysroot with
      | .error e => .error e
      | .ok canon =>
        match fileName canon with
        | some seg => .ok (cppIncludePaths ++ [iFlag (joinC cppVersion seg)])
        | none => .ok cppIncludePaths
    | none => .ok []

/-- The configuration accumulated on a `bindgen::Builder` by this module.  The
external `bindgen` crate is modelled through its builder-method contract: each
method used by `create_builder` records its setting, and list-valued settings
accumulate in call order. -/
structure Builder where
  useCore : Bool := false
  layoutTests : Bool := true
  formatterIsNone : Bool := false
  deriveDefault : Bool := false
  clangArgs : List Str := []
  generateInlineFunctions : Bool := false
  allowFunctionRules : List Str := []
  allowTypeRules : List Str := []
  allowVarRules : List Str := []
  blockTypeRules : List Str := []
  blockFunctionRules : List Str := []
  blockVarRules : List Str := []
  blockFileRules : List Str := []
  deriving DecidableEq

/-- `bindgen::Builder::clang_arg`. -/
def Builder.clangArg (b : Builder) (arg : Str) : Builder :=
  { b with clangArgs := b.clangArgs ++ [arg] }

/-- `bindgen::Builder::clang_args`. -/
def Builder.clangArgsApp (b : Builder) (args : List Str) : Builder :=
  { b with clangArgs := b.clangArgs ++ args }

/-- `bindgen::Builder::allowlist_function`. -/
def Builder.allowlistFunction (b : Builder) (pat : Str) : Builder :=
  { b with allowFunctionRules := b.allowFunctionRules ++ [pat] }

/-- `bindgen::Builder::allowlist_type`. -/
def Builder.allowlistType (b : Builder) (pat : Str) : Builder :=
  { b with allowTypeRules := b.allowTypeRules ++ [pat] }

/-- `bindgen::Builder::allowlist_var`. -/
def Builder.allowlistVar (b : Builder) (pat : Str) : Builder :=
  { b with allowVarRules := b.allowVarRules ++ [pat] }

/-- `bindgen::Builder::blocklist_type`. -/
def Builder.blocklistType (b : Builder) (pat : Str) : Builder :=
  { b with blockTypeRules := b.blockTypeRules ++ [pat] }

/-- `bindgen::Builder::blocklist_function`. -/
def Builder.blocklistFunction (b : Builder) (pat : Str) : Builder :=
  { b with blockFunctionRules := b.blockFunctionRules ++ [pat] }

/-- `bindgen::Builder::blocklist_var`. -/
def Builder.blocklistVar (b : Builder) (pat : Str) : Builder :=
  { b with blockVarRules := b.blockVarRules ++ [pat] }

/-- `bindgen::Builder::blocklist_file`. -/
def Builder.blocklistFile (b : Builder) (pat : Str) : Builder :=
  { b with blockFileRules := b.blockFileRules ++ [pat] }

/-- Models `Filter` (src/bindgen.rs:18-40). -/
structure Filter where
  allow_types : Option (List Str) := none
  allow_functions : Option (List Str) := none
  allow_vars : Option (List Str) := none
  block_types : Option (List Str) := none
  block_functions : Option (List Str) := none
  block_vars : Option (List Str) := none
  block_files : Option (List Str) := none
  deriving DecidableEq

/-- Applies one optional rule list, one rule at a time in list order,
mirroring one `if let Some(..) = .. { for .. }` block of `create_builder`. -/
def applyList (step : Builder → Str → Builder) (b : Builder) :
    Option (List Str) → Builder
  | some l => l.foldl step b
  | none => b

/-- The filter section of `create_builder` (src/bindgen.rs:176-212),
categories applied in source order. -/
def applyFilter (b : Builder) (filter : Filter) : Builder :=
  let b := applyList Builder.allowlistFunction b filter.allow_functions
  let b := applyList Builder.allowlistType b filter.allow_types
  let b := applyList Builder.allowlistVar b filter.allow_vars
  let b := applyList Builder.blocklistType b filter.block_types
  let b := applyList Builder.blocklistFunction b filter.block_functions
  let b := applyList Builder.blocklistVar b filter.block_vars
  let b := applyList Builder.blocklistFile b filter.block_files
  b

/-- Models `Factory` (src/bindgen.rs:43-51). -/
structure Factory where
  clang_args : List Str := []
  linker : Option FsPath := none
  mcu : Option Str := none
  force_cpp : Bool := false
  sysroot : Option FsPath := none
  deriving DecidableEq

/-- Models `Factory::new` (src/bindgen.rs:107-109). -/
def Factory.new : Factory := {}

/-- Models `Factory::with_clang_args` (src/bindgen.rs:112-119). -/
def Factory.with_clang_args (f : Factory) (clangArgs : List Str) : Factory :=
  { f with clang_args := f.clang_args ++ clangArgs }

/-- Models `Factory::with_sysroot` (src/bindgen.rs:122-125). -/
def Factory.with_sysroot (f : Factory) (sysroot : FsPath) : Factory :=
  { f with sysroot := some sysroot }

/-- Models `Factory::with_linker` (src/bindgen.rs:128-131). -/
def Factory.with_linker (f : Factory) (linker : FsPath) : Factory :=
  { f with linker := some linker }

/-- Errors of `create_builder`. -/
inductive BuildErr where
  | sysroot : SysrootErr → BuildErr
  | io : IOErr → BuildErr
  deriving DecidableEq

/-- The sysroot-resolution step of `create_builder` (src/bindgen.rs:145-148):
`self.sysroot.clone().map_or_else(|| try_get_sysroot(&self.linker), Ok)`. -/
def resolveSysroot (factory : Factory) (envLinker : Option FsPath)
    (query : FsPath → Option FsPath) : Except BuildErr FsPath :=
  match factory.sysroot with
  | some s => .ok s
  | none => (try_get_sysroot factory.linker envLinker query).mapError BuildErr.sysroot

/-- The sysroot flags of `create_builder` (src/bindgen.rs:150-153). -/
def sysrootArgs (sysroot : FsPath) : List Str :=
  ["--sysroot=".data ++ pathToStr sysroot, iFlag (joinC sysroot "include".data)]

/-- The builder-assembly section of `create_builder` (src/bindgen.rs:161-212),
one `let` per chained builder-method call. -/
def assembleBuilder (factory : Factory) (cpp : Bool) (sysroot : FsPath)
    (cppArgs : List Str) (filter : Option Filter) : Builder :=
  let b : Builder := {}
  let b := { b with useCore := true }
  let b := { b with layoutTests := false }
  let b := { b with formatterIsNone := true }
  let b := { b with deriveDefault := true }
  let b := b.clangArg "-D__bindgen".data
  let b := b.clangArgsApp factory.clang_args
  let b := b.clangArgsApp (sysrootArgs sysroot)
  let b := b.clangArgsApp ["-x".data, if cpp then "c++".data else "c".data]
  let b := b.clangArgsApp cppArgs
  let b := { b with generateInlineFunctions := cpp }
  let b := b.clangArg "-fno-inline-functions".data
  match filter with
  | some f => applyFilter b f
  | none => b

/-- Models `Factory::create_builder` (src/bindgen.rs:143-220). -/
def create_builder (factory : Factory) (cpp : Bool) (filter : Option Filter)
    (envLinker : Option FsPath) (query : FsPath → Option FsPath) (fs : Fs) :
    Except BuildErr Builder :=
  let cppEff := factory.force_cpp || cpp
  match resolveSysroot factory envLinker query with
  | .error e => .error e
  | .ok sysroot =>
    match (if cppEff then (get_cpp_includes fs sysroot).mapError BuildErr.io
           else .ok []) with
    | .error e => .error e
    | .ok cppArgs => .ok (assembleBuilder factory cppEff sysroot cppArgs filter)

/-- The three formatter invocations attempted by `cargo_fmt_file`. -/
inductive FmtAttempt where
  | active : FmtAttempt
  | stable : FmtAttempt
  | nightly : FmtAttempt
  deriving DecidableEq

/-- Outcomes of the three external `rustfmt` invocations. -/
structure FmtEnv where
  activeOk : Bool
  stableOk : Bool
  nightlyOk : Bool
  deriving DecidableEq

/-- Models `cargo_fmt_file` (src/bindgen.rs:240-260): returns the attempts
run, in order, and the number of warnings printed.  The source's
short-circuiting `&&` chain runs a later attempt exactly when the earlier one
errored. -/
def cargo_fmt_file (fmtEnv : FmtEnv) : List FmtAttempt × Nat :=
  if fmtEnv.activeOk then ([.active], 0)
  else if fmtEnv.stableOk then ([.active, .stable], 0)
  else if fmtEnv.nightlyOk then ([.active, .stable, .nightly], 0)
  else ([.active, .stable, .nightly], 1)

/-- Errors of `run_for_file`. -/
inductive GenErr where
  | generationFailed : GenErr
  | writeFailed : IOErr → GenErr
  deriving DecidableEq

/-- Models `run_for_file` (src/bindgen.rs:263-277); `genOk` is the external
generator's outcome and `writeResult` that of `Bindings::write_to_file`.  On
success the formatter attempts and warning count are returned as the
observable post-processing effects. -/
def run_for_file (genOk : Bool) (writeResult : Except IOErr Unit)
    (fmtEnv : FmtEnv) : Except GenErr (List FmtAttempt × Nat) :=
  if genOk then
    match writeResult with
    | .error e => .error (.writeFailed e)
    | .ok _ => .ok (cargo_fmt_file fmtEnv)
  else .error .generationFailed

/-- A file system whose operations all fail; used in concrete evaluations
where the file system must not be consulted. -/
def fsFail : Fs := { readDir := fun _ => .error 0, canonicalize := fun _ => .error 0 }

/-- A sysroot query that always fails; used in concrete evaluations where the
query must not be consulted. -/
def queryFail : FsPath → Option FsPath := fun _ => none

/-- A projection of the builder that one rule-appending method leaves
untouched is also left untouched by a whole rule list. -/
theorem applyList_proj {γ : Type} (proj : Builder → γ) (step : Builder → Str → Builder)
    (hstep : ∀ b s, proj (step b s) = proj b) :
    ∀ (o : Option (List Str)) (b : Builder), proj (applyList step b o) = proj b := by
  intro o b
  cases o with
  | none => rfl
  | some l =>
    induction l generalizing b with
    | nil => rfl
    | cons x xs ih =>
      have hs : applyList step b (some (x :: xs)) = applyList step (step b x) (some xs) := rfl
      rw [hs, ih (step b x), hstep]

/-- Applying filter rules does not change the clang argument list. -/
theorem applyFilter_clangArgs (b : Builder) (f : Filter) :
    (applyFilter b f).clangArgs = b.clangArgs := by
  simp only [applyFilter]
  rw [applyList_proj Builder.clangArgs Builder.blocklistFile (fun _ _ => rfl),
    applyList_proj Builder.clangArgs Builder.blocklistVar (fun _ _ => rfl),
    applyList_proj Builder.clangArgs Builder.blocklistFunction (fun _ _ => rfl),
    applyList_proj Builder.clangArgs Builder.blocklistType (fun _ _ => rfl),
    applyList_proj Builder.clangArgs Builder.allowlistVar (fun _ _ => rfl),
    applyList_proj Builder.clangArgs Builder.allowlistType (fun _ _ => rfl),
    applyList_proj Builder.clangArgs Builder.allowlistFunction (fun _ _ => rfl)]

/-- Applying filter rules does not change the inline-function setting. -/
theorem applyFilter_inline (b : Builder) (f : Filter) :
    (applyFilter b f).generateInlineFunctions = b.generateInlineFunctions := by
  simp only [applyFilter]
  rw [applyList_proj Builder.generateInlineFunctions Builder.blocklistFile (fun _ _ => rfl),
    applyList_proj Builder.generateInlineFunctions Builder.blocklistVar (fun _ _ => rfl),
    applyList_proj Builder.generateInlineFunctions Builder.blocklistFunction (fun _ _ => rfl),
    applyList_proj Builder.generateInlineFunctions Builder.blocklistType (fun _ _ => rfl),
    applyList_proj Builder.generateInlineFunctions Builder.allowlistVar (fun _ _ => rfl),
    applyList_proj Builder.generateInlineFunctions Builder.allowlistType (fun _ _ => rfl),
    applyList_proj Builder.generateInlineFunctions Builder.allowlistFunction (fun _ _ => rfl)]

/-- The clang argument list assembled by `assembleBuilder`, in order. -/
theorem assembleBuilder_clangArgs (factory : Factory) (cpp : Bool) (sysroot : FsPath)
    (cppArgs : List Str) (filter : Option Filter) :
    (assembleBuilder factory cpp sysroot cppArgs filter).clangArgs =
      ["-D__bindgen".data] ++ factory.clang_args ++ sysrootArgs sysroot
        ++ ["-x".data, if cpp then "c++".data else "c".data] ++ cppArgs
        ++ ["-fno-inline-functions".data] := by
  cases filter with
  | none => simp [assembleBuilder, Builder.clangArg, Builder.clangArgsApp]
  | some f =>
    simp [assembleBuilder, applyFilter_clangArgs, Builder.clangArg, Builder.clangArgsApp]

/-- The inline-function setting produced by `assembleBuilder`. -/
theorem assembleBuilder_inline (factory : Factory) (cpp : Bool) (sysroot : FsPath)
    (cppArgs : List Str) (filter : Option Filter) :
    (assembleBuilder factory cpp sysroot cppArgs filter).generateInlineFunctions = cpp := by
  cases filter with
  | none => rfl
  | some f =>
    simp [assembleBuilder, applyFilter_inline, Builder.clangArg, Builder.clangArgsApp]

/-- Every successful run of `create_builder` decomposes into a resolved
sysroot, resolved C++ include flags, and the assembled builder. -/
theorem create_builder_ok_elim {factory : Factory} {cpp : Bool} {filter : Option Filter}
    {envLinker : Option FsPath} {query : FsPath → Option FsPath} {fs : Fs} {b : Builder}
    (h : create_builder factory cpp filter envLinker query fs = .ok b) :
    ∃ sysroot cppArgs, resolveSysroot factory envLinker query = .ok sysroot ∧
      (if factory.force_cpp || cpp then (get_cpp_includes fs sysroot).mapError BuildErr.io
       else Except.ok []) = .ok cppArgs ∧
      b = assembleBuilder factory (factory.force_cpp || cpp) sysroot cppArgs filter := by
  simp only [create_builder] at h
  split at h
  · exact absurd h (by simp)
  · rename_i sysroot hr
    split at h
    · exact absurd h (by simp)
    · rename_i cppArgs hq
      injection h with h
      exact ⟨sysroot, cppArgs, hr, hq, h.symm⟩

/-- A concrete factory used to exercise `create_builder`: one caller flag and
an explicit sysroot. -/
def cFactory1 : Factory := { clang_args := ["-DFOO".data], sysroot := some ["sr".data] }

/-- The builder produced by `create_builder` on `cFactory1` in C mode. -/
def cBuilder1 : Builder :=
  (create_builder cFactory1 false none none queryFail fsFail).toOption.getD {}

/-- C1 counterexample: at a concrete factory with one caller flag, the flag
sequence assembled by `create_builder` is not exactly the caller flags
followed by the sysroot flags and the language-mode flag — the `-D__bindgen`
marker precedes the caller flags and `-fno-inline-functions` trails the
sequence. -/
theorem C1_counterexample :
    (create_builder cFactory1 false none none queryFail fsFail).map Builder.clangArgs
      = .ok ["-D__bindgen".data, "-DFOO".data, "--sysroot=sr".data, "-Isr/include".data,
             "-x".data, "c".data, "-fno-inline-functions".data]
  ∧ ["-D__bindgen".data, "-DFOO".data, "--sysroot=sr".data, "-Isr/include".data,
     "-x".data, "c".data, "-fno-inline-functions".data]
      ≠ ["-DFOO".data] ++ sysrootArgs ["sr".data] ++ ["-x".data, "c".data] :=
  ⟨by decide, by decide⟩

/-- C1 (amended): every builder successfully produced by `create_builder`
carries the clang flags in exactly this order: the `-D__bindgen` marker, then
the caller-supplied clang args in their original unmodified order, then the
sysroot flags (`--sysroot={sysroot}` followed by `-I{sysroot}/include`), then
the language-mode flag (`-x c` or `-x c++`), then the C++ include flags
(empty when not in effective C++ mode), then the trailing
`-fno-inline-functions` flag.  In particular every caller flag precedes every
sysroot flag, every sysroot flag precedes the language-mode flag, and every
C++ include flag follows the language-mode flag. -/
theorem C1_flag_order (factory : Factory) (cpp : Bool) (filter : Option Filter)
    (envLinker : Option FsPath) (query : FsPath → Option FsPath) (fs : Fs) (b : Builder)
    (h : create_builder factory cpp filter envLinker query fs = .ok b) :
    ∃ sysroot cppArgs,
      b.clangArgs = ["-D__bindgen".data] ++ factory.clang_args ++ sysrootArgs sysroot
        ++ ["-x".data, if factory.force_cpp || cpp then "c++".data else "c".data]
        ++ cppArgs ++ ["-fno-inline-functions".data]
      ∧ ((factory.force_cpp || cpp) = false → cppArgs = []) := by
  obtain ⟨sysroot, cppArgs, hr, hq, hb⟩ := create_builder_ok_elim h
  refine ⟨sysroot, cppArgs, ?_, ?_⟩
  · rw [hb, assembleBuilder_clangArgs]
  · intro hfalse
    rw [hfalse] at hq
    simp at hq
    exact hq

/-- Witness for `C1_flag_order` at the concrete run `cBuilder1`. -/
theorem C1_flag_order_witness :
    ∃ sysroot cppArgs,
      cBuilder1.clangArgs = ["-D__bindgen".data] ++ ["-DFOO".data] ++ sysrootArgs sysroot
        ++ ["-x".data, "c".data] ++ cppArgs ++ ["-fno-inline-functions".data]
      ∧ ((false : Bool) = false → cppArgs = []) :=
  C1_flag_order cFactory1 false none none queryFail fsFail cBuilder1 (by decide)

/-- C5 counterexample: a filter with every category set to the empty list
yields exactly the same builder as a filter with every category absent,
although the two filters differ — so the two do not produce observably
different generator configurations. -/
theorem C5_counterexample :
    create_builder cFactory1 false
        (some { allow_types := some [], allow_functions := some [], allow_vars := some [],
                block_types := some [], block_functions := some [], block_vars := some [],
                block_files := some [] }) none queryFail fsFail
      = create_builder cFactory1 false (some {}) none queryFail fsFail
  ∧ ({ allow_types := some [], allow_functions := some [], allow_vars := some [],
       block_types := some [], block_functions := some [], block_vars := some [],
       block_files := some [] } : Filter) ≠ ({} : Filter) :=
  ⟨rfl, by decide⟩

/-- C5 (amended): for every filter category, setting it to `some []` applies
no rule of that category, exactly like leaving it `none`: the resulting
builder configurations are identical, so absence of a list is not preserved
as distinct from presence of an empty list. -/
theorem C5_empty_eq_none (b : Builder) (f : Filter) :
    applyFilter b { f with allow_functions := some [] }
        = applyFilter b { f with allow_functions := none }
  ∧ applyFilter b { f with allow_types := some [] }
        = applyFilter b { f with allow_types := none }
  ∧ applyFilter b { f with allow_vars := some [] }
        = applyFilter b { f with allow_vars := none }
  ∧ applyFilter b { f with block_types := some [] }
        = applyFilter b { f with block_types := none }
  ∧ applyFilter b { f with block_functions := some [] }
        = applyFilter b { f with block_functions := none }
  ∧ applyFilter b { f with block_vars := some [] }
        = applyFilter b { f with block_vars := none }
  ∧ applyFilter b { f with block_files := some [] }
        = applyFilter b { f with block_files := none } :=
  ⟨rfl, rfl, rfl, rfl, rfl, rfl, rfl⟩

/-- C6 counterexample: in non-C++ mode `create_builder` still passes
`-fno-inline-functions`, so the two inline-function settings are not applied
only in C++ mode. -/
theorem C6_counterexample :
    (create_builder cFactory1 false none none queryFail fsFail).map
        (fun b => (b.generateInlineFunctions,
          b.clangArgs.contains "-fno-inline-functions".data))
      = .ok (false, true) := by decide

/-- C6 (amended): in effective C++ mode `create_builder` both enables inline
function generation and passes `-fno-inline-functions`; in non-C++ mode
inline function generation is disabled but `-fno-inline-functions` is still
passed unconditionally. -/
theorem C6_inline_settings (factory : Factory) (cpp : Bool) (filter : Option Filter)
    (envLinker : Option FsPath) (query : FsPath → Option FsPath) (fs : Fs) (b : Builder)
    (h : create_builder factory cpp filter envLinker query fs = .ok b) :
    b.generateInlineFunctions = (factory.force_cpp || cpp)
    ∧ "-fno-inline-functions".data ∈ b.clangArgs := by
  obtain ⟨sysroot, cppArgs, hr, hq, hb⟩ := create_builder_ok_elim h
  subst hb
  refine ⟨assembleBuilder_inline factory (factory.force_cpp || cpp) sysroot cppArgs filter, ?_⟩
  rw [assembleBuilder_clangArgs]
  simp

/-- Witness for `C6_inline_settings` at the concrete run `cBuilder1`. -/
theorem C6_inline_settings_witness :
    cBuilder1.generateInlineFunctions = false
    ∧ "-fno-inline-functions".data ∈ cBuilder1.clangArgs :=
  C6_inline_settings cFactory1 false none none queryFail fsFail cBuilder1 (by decide)

/-- C7: the effective C++ mode of `create_builder` is
`toolchain.force_cpp OR cpp`; in effective C++ mode the result is exactly the
resolution of the C++ include flags mapped into the assembled builder, and
outside it the C++ include flag list is empty and the file system is never
consulted. -/
theorem C7_effective_cpp (factory : Factory) (cpp : Bool) (filter : Option Filter)
    (envLinker : Option FsPath) (query : FsPath → Option FsPath) (fs : Fs) (sysroot : FsPath)
    (h : resolveSysroot factory envLinker query = .ok sysroot) :
    ((factory.force_cpp || cpp) = true →
      create_builder factory cpp filter envLinker query fs
        = ((get_cpp_includes fs sysroot).mapError BuildErr.io).map
            (fun cppArgs => assembleBuilder factory true sysroot cppArgs filter))
  ∧ ((factory.force_cpp || cpp) = false →
      create_builder factory cpp filter envLinker query fs
        = .ok (assembleBuilder factory false sysroot [] filter)) := by
  constructor
  · intro hcpp
    cases hg : get_cpp_includes fs sysroot with
    | error e => simp [create_builder, h, hcpp, hg, Except.mapError, Except.map]
    | ok cppArgs => simp [create_builder, h, hcpp, hg, Except.mapError, Except.map]
  · intro hcpp
    simp [create_builder, h, hcpp]

/-- Witness for `C7_effective_cpp`: with an explicit sysroot and C mode, the
builder is assembled with no C++ include flags. -/
theorem C7_effective_cpp_witness :
    create_builder { sysroot := some ["sr".data] } false none none queryFail fsFail
      = .ok (assembleBuilder { sysroot := some ["sr".data] } false ["sr".data] [] none) :=
  (C7_effective_cpp { sysroot := some ["sr".data] } false none none queryFail fsFail
    ["sr".data] (by decide)).2 rfl

/-- C8: sysroot resolution priority.  An explicit sysroot is used unchanged
and the detection query is never invoked (the result is the same for any two
query functions); otherwise the caller-supplied linker is queried; otherwise
the `RUSTC_LINKER` environment linker is queried; and with none of the three,
`create_builder` fails with the missing-linker error, producing no builder. -/
theorem C8_sysroot_priority :
    (∀ (factory : Factory) (s : FsPath) (cpp : Bool) (filter : Option Filter)
        (envLinker : Option FsPath) (q1 q2 : FsPath → Option FsPath) (fs : Fs),
      factory.sysroot = some s →
        resolveSysroot factory envLinker q1 = .ok s ∧
        create_builder factory cpp filter envLinker q1 fs
          = create_builder factory cpp filter envLinker q2 fs)
  ∧ (∀ (l : FsPath) (envLinker : Option FsPath) (query : FsPath → Option FsPath),
      try_get_sysroot (some l) envLinker query = querySysroot query l)
  ∧ (∀ (l : FsPath) (query : FsPath → Option FsPath),
      try_get_sysroot none (some l) query = querySysroot query l)
  ∧ (∀ (factory : Factory) (cpp : Bool) (filter : Option Filter)
        (query : FsPath → Option FsPath) (fs : Fs),
      factory.sysroot = none → factory.linker = none →
        create_builder factory cpp filter none query fs
          = .error (.sysroot .missingLinker)) := by
  refine ⟨?_, fun _ _ _ => rfl, fun _ _ => rfl, ?_⟩
  · intro factory s cpp filter envLinker q1 q2 fs hs
    constructor
    · simp [resolveSysroot, hs]
    · simp [create_builder, resolveSysroot, hs]
  · intro factory cpp filter query fs hs hl
    simp [create_builder, resolveSysroot, hs, hl, try_get_sysroot, Except.mapError]

/-- Witness for `C8_sysroot_priority`: explicit-sysroot runs ignore the query
function, and a factory with no sysroot and no linker fails. -/
theorem C8_sysroot_priority_witness :
    (resolveSysroot { sysroot := some ["sr".data] } none queryFail = .ok ["sr".data]
      ∧ create_builder { sysroot := some ["sr".data] } false none none queryFail fsFail
          = create_builder { sysroot := some ["sr".data] } false none none
              (fun p => some p) fsFail)
    ∧ create_builder {} false none none queryFail fsFail
        = .error (.sysroot .missingLinker) :=
  ⟨C8_sysroot_priority.1 { sysroot := some ["sr".data] } ["sr".data] false none none
      queryFail (fun p => some p) fsFail rfl,
   C8_sysroot_priority.2.2.2 {} false none queryFail fsFail rfl rfl⟩

/-- C9: after a successful write, reformatting is attempted with the active
toolchain's rustfmt, then stable's, then nightly's, each attempt made only
after the previous one failed; when all three fail, exactly one warning is
emitted and `run_for_file` still returns success. -/
theorem C9_formatter_fallback :
    (∀ fmtEnv : FmtEnv, fmtEnv.activeOk = true → cargo_fmt_file fmtEnv = ([.active], 0))
  ∧ (∀ fmtEnv : FmtEnv, fmtEnv.activeOk = false → fmtEnv.stableOk = true →
      cargo_fmt_file fmtEnv = ([.active, .stable], 0))
  ∧ (∀ fmtEnv : FmtEnv, fmtEnv.activeOk = false → fmtEnv.stableOk = false →
      fmtEnv.nightlyOk = true → cargo_fmt_file fmtEnv = ([.active, .stable, .nightly], 0))
  ∧ (∀ fmtEnv : FmtEnv, fmtEnv.activeOk = false → fmtEnv.stableOk = false →
      fmtEnv.nightlyOk = false →
      run_for_file true (.ok ()) fmtEnv = .ok ([.active, .stable, .nightly], 1)) := by
  refine ⟨?_, ?_, ?_, ?_⟩ <;> intro fmtEnv <;> intros <;>
    simp_all [cargo_fmt_file, run_for_file]

/-- Witness for `C9_formatter_fallback`: all three formatters failing still
yields success with one warning. -/
theorem C9_formatter_fallback_witness :
    run_for_file true (.ok ()) ⟨false, false, false⟩ = .ok ([.active, .stable, .nightly], 1) :=
  C9_formatter_fallback.2.2.2 ⟨false, false, false⟩ rfl rfl rfl

/-- C10: each `Factory` setter modifies only its own field: `with_sysroot`
sets only `sysroot`, `with_linker` sets only `linker`, and `with_clang_args`
appends its arguments at the end of `clang_args`, preserving all earlier
entries, their order and duplicates, leaving every other field unchanged. -/
theorem C10_setters_frame (f : Factory) (s l : FsPath) (args : List Str) :
    ((f.with_sysroot s).sysroot = some s ∧ (f.with_sysroot s).clang_args = f.clang_args
      ∧ (f.with_sysroot s).linker = f.linker ∧ (f.with_sysroot s).mcu = f.mcu
      ∧ (f.with_sysroot s).force_cpp = f.force_cpp)
  ∧ ((f.with_linker l).linker = some l ∧ (f.with_linker l).clang_args = f.clang_args
      ∧ (f.with_linker l).mcu = f.mcu ∧ (f.with_linker l).force_cpp = f.force_cpp
      ∧ (f.with_linker l).sysroot = f.sysroot)
  ∧ ((f.with_clang_args args).clang_args = f.clang_args ++ args
      ∧ (f.with_clang_args args).linker = f.linker ∧ (f.with_clang_args args).mcu = f.mcu
      ∧ (f.with_clang_args args).force_cpp = f.force_cpp
      ∧ (f.with_clang_args args).sysroot = f.sysroot) :=
  ⟨⟨rfl, rfl, rfl, rfl, rfl⟩, ⟨rfl, rfl, rfl, rfl, rfl⟩, ⟨rfl, rfl, rfl, rfl, rfl⟩⟩

/-- A skipped (erroring) entry leaves the readable-entry list unchanged. -/
theorem okPaths_cons_none {e : Except IOErr FsPath} (he : e.toOption = none)
    (rest : List (Except IOErr FsPath)) : okPaths (e :: rest) = okPaths rest := by
  simp [okPaths, List.filterMap_cons, he]

/-- A readable entry heads the readable-entry list. -/
theorem okPaths_cons_some {e : Except IOErr FsPath} {s : FsPath} (he : e.toOption = some s)
    (rest : List (Except IOErr FsPath)) : okPaths (e :: rest) = s :: okPaths rest := by
  simp [okPaths, List.filterMap_cons, he]

/-- The fold of `get_cpp_includes`, seeded with an accumulator, returns an
element among the seed and the readable entries that no such element
exceeds. -/
theorem foldl_foldStep_some (entries : List (Except IOErr FsPath)) :
    ∀ a : FsPath, ∃ v, entries.foldl foldStep (some a) = some v
      ∧ v ∈ a :: okPaths entries
      ∧ ∀ u ∈ a :: okPaths entries, u ≤ v := by
  induction entries with
  | nil =>
    intro a
    refine ⟨a, rfl, List.mem_cons_self a _, ?_⟩
    intro u hu
    simp [okPaths] at hu
    exact le_of_eq hu
  | cons e rest ih =>
    intro a
    cases he : e.toOption with
    | none =>
      obtain ⟨v, hv, hmem, hmax⟩ := ih a
      refine ⟨v, ?_, ?_, ?_⟩
      · simpa [List.foldl_cons, foldStep, he] using hv
      · rw [okPaths_cons_none he]; exact hmem
      · rw [okPaths_cons_none he]; exact hmax
    | some s =>
      by_cases hlt : a < s
      · obtain ⟨v, hv, hmem, hmax⟩ := ih s
        refine ⟨v, ?_, ?_, ?_⟩
        · simpa [List.foldl_cons, foldStep, he, hlt] using hv
        · rw [okPaths_cons_some he]
          rcases List.mem_cons.mp hmem with rfl | hmem
          · exact List.mem_cons_of_mem _ (List.mem_cons_self _ _)
          · exact List.mem_cons_of_mem _ (List.mem_cons_of_mem _ hmem)
        · rw [okPaths_cons_some he]
          intro u hu
          rcases List.mem_cons.mp hu with rfl | hu
          · exact le_trans (le_of_lt hlt) (hmax s (List.mem_cons_self _ _))
          · exact hmax u hu
      · obtain ⟨v, hv, hmem, hmax⟩ := ih a
        refine ⟨v, ?_, ?_, ?_⟩
        · simpa [List.foldl_cons, foldStep, he, hlt] using hv
        · rw [okPaths_cons_some he]
          rcases List.mem_cons.mp hmem with rfl | hmem
          · exact List.mem_cons_self _ _
          · exact List.mem_cons_of_mem _ (List.mem_cons_of_mem _ hmem)
        · rw [okPaths_cons_some he]
          intro u hu
          rcases List.mem_cons.mp hu with rfl | hu
          · exact hmax u (List.mem_cons_self _ _)
          · rcases List.mem_cons.mp hu with rfl | hu
            · exact le_trans (le_of_not_lt hlt) (hmax a (List.mem_cons_self _ _))
            · exact hmax u (List.mem_cons_of_mem _ hu)

/-- The version directory selected by `get_cpp_includes` is a readable entry
that no readable entry exceeds in path-lexicographic order. -/
theorem cppVersionOf_some_spec (entries : List (Except IOErr FsPath)) (v : FsPath)
    (hv : cppVersionOf entries = some v) :
    v ∈ okPaths entries ∧ ∀ u ∈ okPaths entries, u ≤ v := by
  induction entries with
  | nil => cases hv
  | cons e rest ih =>
    cases he : e.toOption with
    | none =>
      have hv' : cppVersionOf rest = some v := by
        simpa [cppVersionOf, List.foldl_cons, foldStep, he] using hv
      obtain ⟨hm, hmax⟩ := ih hv'
      rw [okPaths_cons_none he]
      exact ⟨hm, hmax⟩
    | some s =>
      have hv' : rest.foldl foldStep (some s) = some v := by
        simpa [cppVersionOf, List.foldl_cons, foldStep, he] using hv
      obtain ⟨v', hv'', hmem, hmax⟩ := foldl_foldStep_some rest s
      rw [hv'] at hv''
      injection hv'' with hv''
      subst hv''
      rw [okPaths_cons_some he]
      exact ⟨hmem, hmax⟩

/-- The fold of `get_cpp_includes` selects no version exactly when there is
no readable entry. -/
theorem cppVersionOf_eq_none_iff (entries : List (Except IOErr FsPath)) :
    cppVersionOf entries = none ↔ okPaths entries = [] := by
  induction entries with
  | nil => simp [cppVersionOf, okPaths]
  | cons e rest ih =>
    cases he : e.toOption with
    | none =>
      have hthis : cppVersionOf (e :: rest) = cppVersionOf rest := by
        simp [cppVersionOf, List.foldl_cons, foldStep, he]
      rw [hthis, okPaths_cons_none he, ih]
    | some s =>
      obtain ⟨v, hv, _, _⟩ := foldl_foldStep_some rest s
      have h1 : cppVersionOf (e :: rest) = some v := by
        simpa [cppVersionOf, List.foldl_cons, foldStep, he] using hv
      rw [h1, okPaths_cons_some he]
      simp

/-- The entries of a concrete `{sysroot}/include/c++` directory holding the
version directories `9`, `10` and `11`. -/
def entries91011 : List (Except IOErr FsPath) :=
  [.ok ["sr".data, "include".data, "c++".data, "9".data],
   .ok ["sr".data, "include".data, "c++".data, "10".data],
   .ok ["sr".data, "include".data, "c++".data, "11".data]]

/-- A concrete file system whose `{sysroot}/include/c++` directory holds the
version directories `9`, `10` and `11`, with sysroot `sr` canonicalizing to
itself. -/
def fs91011 : Fs :=
  { readDir := fun p => if p = cppIncludesRoot ["sr".data] then .ok entries91011 else .error 0,
    canonicalize := fun _ => .ok ["sr".data] }

/-- C3 counterexample: with entries `9`, `10`, `11`, `get_cpp_includes`
selects `9` — the path-lexicographically greatest — and not `11` as the claim
states. -/
theorem C3_counterexample :
    get_cpp_includes fs91011 ["sr".data]
      = .ok ["-Isr/include/c++/9".data, "-Isr/include/c++/9/backward".data,
             "-Isr/include/c++/9/sr".data]
  ∧ ["-Isr/include/c++/9".data, "-Isr/include/c++/9/backward".data,
     "-Isr/include/c++/9/sr".data]
      ≠ ["-Isr/include/c++/11".data, "-Isr/include/c++/11/backward".data,
         "-Isr/include/c++/11/sr".data] :=
  ⟨by decide, by decide⟩

/-- C3 (amended): `get_cpp_includes` propagates a failing enumeration of
`{sysroot}/include/c++` as a hard error; among the enumerated entries it
selects a readable entry that is greatest in path-lexicographic order,
skipping entries that error during enumeration (so with entries `9`, `10`,
`11` it selects `9`, and with `9`, `10` it selects `9`); and when no readable
entry exists it returns the empty flag list successfully, not an error. -/
theorem C3_version_selection :
    (∀ (fs : Fs) (sysroot : FsPath) (e : IOErr),
      fs.readDir (cppIncludesRoot sysroot) = .error e →
        get_cpp_includes fs sysroot = .error e)
  ∧ (∀ (fs : Fs) (sysroot : FsPath) (entries : List (Except IOErr FsPath)),
      fs.readDir (cppIncludesRoot sysroot) = .ok entries →
        okPaths entries = [] → get_cpp_includes fs sysroot = .ok [])
  ∧ (∀ (entries : List (Except IOErr FsPath)) (v : FsPath),
      cppVersionOf entries = some v →
        v ∈ okPaths entries ∧ ∀ u ∈ okPaths entries, u ≤ v)
  ∧ (∀ entries : List (Except IOErr FsPath),
      okPaths entries ≠ [] → cppVersionOf entries ≠ none) := by
  refine ⟨?_, ?_, cppVersionOf_some_spec, ?_⟩
  · intro fs sysroot e he
    simp [get_cpp_includes, he]
  · intro fs sysroot entries he hok
    have hnone : cppVersionOf entries = none := (cppVersionOf_eq_none_iff entries).mpr hok
    simp [get_cpp_includes, he, hnone]
  · intro entries hne hnone
    exact hne ((cppVersionOf_eq_none_iff entries).mp hnone)

/-- Witness for `C3_version_selection`: among the entries `9` and `10`, the
selected version is `9`, a readable entry at least as great as every
readable entry. -/
theorem C3_version_selection_witness :
    (["9".data] : FsPath) ∈ okPaths [Except.ok ["9".data], Except.ok ["10".data]]
    ∧ ∀ u ∈ okPaths [Except.ok ["9".data], Except.ok ["10".data]], u ≤ (["9".data] : FsPath) :=
  C3_version_selection.2.2.1 [Except.ok ["9".data], Except.ok ["10".data]] ["9".data] (by decide)

/-- C4: when a version directory is found, `get_cpp_includes` returns, in
this fixed order, an include flag for the version directory, one for its
`backward` subdirectory, and — only when canonicalizing the sysroot succeeds
and the canonical path has a non-empty final segment — one for the version
directory joined with that segment; a canonicalization failure propagates its
I/O error instead of returning flags. -/
theorem C4_cpp_include_flags (fs : Fs) (sysroot : FsPath)
    (entries : List (Except IOErr FsPath)) (v : FsPath)
    (he : fs.readDir (cppIncludesRoot sysroot) = .ok entries)
    (hv : cppVersionOf entries = some v) :
    (∀ e : IOErr, fs.canonicalize sysroot = .error e →
        get_cpp_includes fs sysroot = .error e)
  ∧ (∀ canon seg, fs.canonicalize sysroot = .ok canon → fileName canon = some seg →
        get_cpp_includes fs sysroot
          = .ok [iFlag v, iFlag (joinC v "backward".data), iFlag (joinC v seg)])
  ∧ (∀ canon, fs.canonicalize sysroot = .ok canon → fileName canon = none →
        get_cpp_includes fs sysroot = .ok [iFlag v, iFlag (joinC v "backward".data)]) := by
  refine ⟨?_, ?_, ?_⟩
  · intro e hc
    simp [get_cpp_includes, he, hv, hc]
  · intro canon seg hc hseg
    simp [get_cpp_includes, he, hv, hc, hseg]
  · intro canon hc hseg
    simp [get_cpp_includes, he, hv, hc, hseg]

/-- Witness for `C4_cpp_include_flags` at the concrete file system
`fs91011`. -/
theorem C4_cpp_include_flags_witness :
    get_cpp_includes fs91011 ["sr".data]
      = .ok [iFlag ["sr".data, "include".data, "c++".data, "9".data],
             iFlag (joinC ["sr".data, "include".data, "c++".data, "9".data] "backward".data),
             iFlag (joinC ["sr".data, "include".data, "c++".data, "9".data] "sr".data)] :=
  (C4_cpp_include_flags fs91011 ["sr".data] entries91011
      ["sr".data, "include".data, "c++".data, "9".data] (by decide) (by decide)).2.1
    ["sr".data] "sr".data (by decide) (by decide)

/-- A dot-free string has no last-dot split. -/
theorem splitLastDot_eq_none {s : Str} (h : '.' ∉ s) : splitLastDot s = none := by
  induction s with
  | nil => rfl
  | cons c cs ih =>
    have hc : ¬ c = '.' := fun hc => h (by subst hc; exact List.mem_cons_self _ _)
    have hcs : '.' ∉ cs := fun hm => h (List.mem_cons_of_mem _ hm)
    simp [splitLastDot, ih hcs, hc]

/-- A dot-free file name is its own stem and has no extension. -/
theorem splitFileAtDot_no_dot {name : Str} (h : '.' ∉ name) :
    splitFileAtDot name = (name, none) := by
  cases name with
  | nil => rfl
  | cons c cs =>
    have hne : (c :: cs) ≠ ['.', '.'] := fun he => (he ▸ h) (by decide)
    have hcs : '.' ∉ cs := fun hm => h (List.mem_cons_of_mem _ hm)
    simp [splitFileAtDot, hne, splitLastDot_eq_none hcs]

/-- The file name of a path after `withFileName` is the new name. -/
theorem fileName_withFileName (p : FsPath) (name : Str) :
    fileName (withFileName p name) = some name := by
  simp [fileName, withFileName]

/-- Replacing the file name twice keeps only the second replacement. -/
theorem withFileName_withFileName (p : FsPath) (n1 n2 : Str) :
    withFileName (withFileName p n1) n2 = withFileName p n2 := by
  simp [withFileName]

/-- C2 counterexample: for the linker `/usr/bin/a.b-gcc.exe` — whose stem
`a.b-gcc` matches the GCC pattern — the sysroot query is invoked on
`/usr/bin/a.exe`, not on the `/usr/bin/a.b-ld.exe` that replacing the `gcc`
suffix by `ld` with the extension preserved would give: re-setting the
extension truncates the new name at its last dot. -/
theorem C2_counterexample :
    try_get_sysroot (some ["usr".data, "bin".data, "a.b-gcc.exe".data]) none some
      = .ok ["usr".data, "bin".data, "a.exe".data]
  ∧ (["usr".data, "bin".data, "a.exe".data] : FsPath)
      ≠ ["usr".data, "bin".data, "a.b-ld.exe".data] :=
  ⟨by decide, by decide⟩

/-- C2 (amended): when the resolved linker's file stem is exactly `gcc` or
ends with `-gcc` and that stem contains no dot, the sysroot query is invoked
on the path whose file name is the stem with its `gcc` suffix replaced by
`ld` and with any file extension preserved; for a stem containing a dot the
re-set extension truncates the replaced name at its last dot; and any linker
whose stem does not match the pattern is queried unmodified. -/
theorem C2_gcc_ld_substitution :
    (∀ (linker : FsPath) (stem : Str), fileStem linker = some stem →
        gccStem stem = true → '.' ∉ stem →
        substituteGccLd linker
          = withFileName linker
              ((stem.take (stem.length - 3) ++ "ld".data)
                ++ match extension linker with
                   | some ext => if ext = [] then [] else '.' :: ext
                   | none => []))
  ∧ (∀ linker : FsPath, (fileStem linker).filter gccStem = none →
        substituteGccLd linker = linker) := by
  constructor
  · intro linker stem hstem hgcc hnodot
    have hfilter : (fileStem linker).filter gccStem = some stem := by
      rw [hstem]
      simp [Option.filter, hgcc]
    have hsuffix : List.isSuffixOf "gcc".data stem = true := by
      rw [List.isSuffixOf_iff_suffix]
      have hcases : stem = "gcc".data ∨ strEndsWith stem "-gcc".data = true := by
        simpa [gccStem, Bool.or_eq_true, beq_iff_eq] using hgcc
      rcases hcases with h | h
      · rw [h]
      · exact List.IsSuffix.trans ⟨['-'], rfl⟩
          (List.isSuffixOf_iff_suffix.mp (by simpa [strEndsWith] using h))
    have h3 : ("gcc".data).length = 3 := rfl
    have hstrip : stripSuffix stem "gcc".data = some (stem.take (stem.length - 3)) := by
      simp [stripSuffix, hsuffix, h3]
    have hnodotLd : '.' ∉ (stem.take (stem.length - 3) ++ "ld".data) := by
      intro hm
      rcases List.mem_append.mp hm with hm | hm
      · exact hnodot (List.take_subset _ _ hm)
      · exact absurd hm (by decide)
    cases hext : extension linker with
    | none =>
      simp [substituteGccLd, hfilter, hstrip, hext]
    | some ext =>
      have hstem2 : fileStem (withFileName linker (stem.take (stem.length - 3) ++ "ld".data))
          = some (stem.take (stem.length - 3) ++ "ld".data) := by
        simp [fileStem, fileName_withFileName, splitFileAtDot_no_dot hnodotLd]
      simp only [substituteGccLd, hfilter, hstrip, hext, Option.getD_some, setExtension,
        hstem2, withFileName_withFileName]
      by_cases hE : ext = []
      · simp [hE]
      · simp [hE]
  · intro linker hnone
    simp [substituteGccLd, hnone]

/-- Witness for `C2_gcc_ld_substitution`: the linker `arm-none-eabi-gcc` is
queried as `arm-none-eabi-ld`. -/
theorem C2_gcc_ld_substitution_witness :
    substituteGccLd ["opt".data, "toolchain".data, "bin".data, "arm-none-eabi-gcc".data]
      = ["opt".data, "toolchain".data, "bin".data, "arm-none-eabi-ld".data] := by
  have h := C2_gcc_ld_substitution.1
    ["opt".data, "toolchain".data, "bin".data, "arm-none-eabi-gcc".data]
    "arm-none-eabi-gcc".data (by decide) (by decide) (by decide)
  rw [h]
  decide

end Embuild
